import Mathlib

set_option linter.unusedVariables false

/-!
Shallow embedding of the doc-gen-app storage gateway (fileService) and
redaction session manager (redactionService), with theorems checking the
specification's claims against the embedded code.

Conventions: byte buffers are `List Nat`; timestamps are `Nat` seconds;
JS numbers used as coordinates are `ℚ`; fallible code returns `Except`.
-/

namespace DocGen

/-- Byte buffers (JS `Buffer`) are modelled as lists of byte values. -/
abbrev Bytes := List Nat

/-! ## Storage gateway: GCP adapter (fileService.js)

The GCP provider store is a list of objects keyed by (bucket, name).
`uploadGCPFile` is the single-shot upload that actually writes an object;
the "resumable" multipart trio below never touches the store, mirroring
the source exactly. -/

structure GCPObject where
  bucket : String
  name : String
  data : Bytes
  deriving DecidableEq, Repr

/-- State of the GCP provider: the set of stored objects. -/
abbrev GCPState := List GCPObject

/-- Looks up the bytes stored under (bucket, name), if any. -/
def gcpLookup (st : GCPState) (bucket name : String) : Option Bytes :=
  (st.find? (fun o => o.bucket == bucket && o.name == name)).map GCPObject.data

/-- Single-shot `uploadGCPFile`: writes the object through a write stream
and resolves with success. Replaces any object under the same key. -/
def uploadGCPFile (bucketName fileName : String) (buffer : Bytes)
    (st : GCPState) : GCPState × Bool :=
  (⟨bucketName, fileName, buffer⟩ ::
     st.filter (fun o => !(o.bucket == bucketName && o.name == fileName)), true)

/-- Embeds `initiateGCPResumableUpload`: builds the id string
`gcp_<Date.now()>_<random>` and a local `uploadSession` object that the
source immediately drops (it is never stored anywhere); the provider
state is untouched. The timestamp and random suffix are passed in. -/
def initiateGCPResumableUpload (bucketName fileName contentType : String)
    (nowMs rand : String) (st : GCPState) : GCPState × String :=
  (st, "gcp_" ++ nowMs ++ "_" ++ rand)

/-- Embeds `uploadGCPChunk`: returns the token
`gcp_chunk_<partNumber>_<uploadId>` and does nothing else — the chunk
bytes are not persisted anywhere. -/
def uploadGCPChunk (bucketName fileName uploadId : String) (partNumber : Nat)
    (buffer : Bytes) (st : GCPState) : GCPState × String :=
  (st, "gcp_chunk_" ++ toString partNumber ++ "_" ++ uploadId)

/-- Acknowledgement returned by `completeGCPResumableUpload`. -/
structure GCPCompleteAck where
  success : Bool
  uploadId : String
  deriving DecidableEq, Repr

/-- Embeds `completeGCPResumableUpload`: returns a success
acknowledgement without performing any upload; the provider state is
returned unchanged, exactly as in the source. -/
def completeGCPResumableUpload (bucketName fileName uploadId : String)
    (st : GCPState) : GCPState × GCPCompleteAck :=
  (st, { success := true, uploadId := uploadId })

/-! ## Storage gateway: AWS adapter -/

/-- Caller-supplied part reference `{partNumber, etag}` as sent to the
multipart completion endpoint. -/
structure PartRef where
  partNumber : Nat
  etag : String
  deriving DecidableEq, Repr

/-- One entry of `MultipartUpload.Parts` in the S3 completion request. -/
structure AWSCompletedPart where
  ETag : String
  PartNumber : Nat
  deriving DecidableEq, Repr

/-- Request record handed to `s3.completeMultipartUpload`. -/
structure AWSCompleteRequest where
  Bucket : String
  Key : String
  UploadId : String
  Parts : List AWSCompletedPart
  deriving DecidableEq, Repr

/-- Embeds `completeAWSMultipartUpload`: builds the completion request by
mapping the caller's parts list in the order given —
`parts.map(part => ({ETag: part.etag, PartNumber: part.partNumber}))`. -/
def completeAWSMultipartUpload (bucketName fileName uploadId : String)
    (parts : List PartRef) : AWSCompleteRequest :=
  { Bucket := bucketName
    Key := fileName
    UploadId := uploadId
    Parts := parts.map (fun part => { ETag := part.etag, PartNumber := part.partNumber }) }

/-! ## Storage gateway: Azure adapter

`uploadAzureBlock` derives a block id by zero-padding the part number to
six characters and base64-encoding the result, as in
`Buffer.from(partNumber.toString().padStart(6, '0')).toString('base64')`. -/

/-- Standard base64 alphabet. -/
def base64Alphabet : String :=
  "ABCDEFGHIJKLMNOPQRSTUVWXYZabcdefghijklmnopqrstuvwxyz0123456789+/"

/-- Character of the base64 alphabet at index `n`. -/
def b64Char (n : Nat) : Char := base64Alphabet.data.getD n 'A'

/-- Base64-encodes a byte list, three bytes at a time, with `=` padding. -/
def base64EncodeBytes : List Nat → List Char
  | [] => []
  | [b1] => [b64Char (b1 / 4), b64Char (b1 % 4 * 16), '=', '=']
  | [b1, b2] => [b64Char (b1 / 4), b64Char (b1 % 4 * 16 + b2 / 16),
                 b64Char (b2 % 16 * 4), '=']
  | b1 :: b2 :: b3 :: rest =>
      b64Char (b1 / 4) :: b64Char (b1 % 4 * 16 + b2 / 16) ::
      b64Char (b2 % 16 * 4 + b3 / 64) :: b64Char (b3 % 64) ::
      base64EncodeBytes rest

/-- Base64 of the UTF-8 bytes of an ASCII string
(`Buffer.from(s).toString('base64')` for ASCII input). -/
def base64Encode (s : String) : String :=
  String.mk (base64EncodeBytes (s.data.map Char.toNat))

/-- JS `String#padStart(len, c)`: left-pads to length `len`, leaving the
string unchanged when it is already at least that long. -/
def padStart (s : String) (len : Nat) (c : Char) : String :=
  String.mk (List.replicate (len - s.length) c) ++ s

/-- Block id derived in `uploadAzureBlock` from the part number alone. -/
def azureBlockId (partNumber : Nat) : String :=
  base64Encode (padStart (toString partNumber) 6 '0')

/-- One staged (uncommitted) Azure block. -/
structure AzureStagedBlock where
  fileName : String
  blockId : String
  data : Bytes
  deriving DecidableEq, Repr

/-- One committed Azure blob: the ordered block-id list passed to
`commitBlockList`. -/
structure AzureCommittedBlob where
  fileName : String
  blockIds : List String
  deriving DecidableEq, Repr

/-- State of the Azure provider: staged blocks and committed blobs. -/
structure AzureState where
  staged : List AzureStagedBlock
  committed : List AzureCommittedBlob
  deriving DecidableEq, Repr

/-- Embeds `uploadAzureBlock`: derives the block id from the part number,
stages the block, and returns the block id as the part token. -/
def uploadAzureBlock (bucketName fileName uploadId : String) (partNumber : Nat)
    (buffer : Bytes) (st : AzureState) : AzureState × String :=
  let blockId := azureBlockId partNumber
  ({ st with staged := st.staged ++ [⟨fileName, blockId, buffer⟩] }, blockId)

/-- Embeds `completeAzureBlockUpload`: commits
`parts.map(part => part.etag)` — the caller-supplied tokens, in the order
given — via `commitBlockList`. -/
def completeAzureBlockUpload (bucketName fileName uploadId : String)
    (parts : List PartRef) (st : AzureState) : AzureState × Bool :=
  let blockIds := parts.map PartRef.etag
  ({ st with committed := st.committed ++ [⟨fileName, blockIds⟩] }, true)

/-! ## Storage gateway: GCP listing -/

/-- Per-object metadata as returned by a successful `file.getMetadata()`.
`size` is `parseInt(metadata.size)` with `none` standing for a value that
parses to NaN; `updated`/`timeCreated` are millisecond timestamps with
`none` for an absent field. -/
structure GCPMetadata where
  size : Option Nat
  updated : Option Nat
  timeCreated : Option Nat
  contentType : Option String
  etag : String
  md5Hash : String
  deriving DecidableEq, Repr

/-- One entry of the bucket listing: the object name together with the
outcome of its metadata fetch (`none` models a `getMetadata()` failure). -/
structure GCPFileEntry where
  name : String
  metadata : Option GCPMetadata
  deriving DecidableEq, Repr

/-- Descriptor pushed onto the result list by `listGCPFiles`. -/
structure FileDescriptor where
  fileName : String
  size : Nat
  lastModified : Option Nat
  contentType : String
  etag : String
  md5Hash : String
  deriving DecidableEq, Repr

/-- Characters after the last dot of a character list, or `none` when it
contains no dot. -/
def afterLastDot : List Char → Option (List Char)
  | [] => none
  | c :: rest =>
      match afterLastDot rest with
      | some e => some e
      | none => if c = '.' then some rest else none

/-- Lowercased extension of a file name: the part after the final dot,
or `none` when the name has no dot (as the `mime-types` lookup sees it). -/
def extOf (fileName : String) : Option String :=
  (afterLastDot fileName.data).map (fun e => String.mk (e.map Char.toLower))

/-- Models the external `mime-types` library's `mime.lookup` on the
extensions this repository works with; unknown extensions yield `none`
(JS `false`). -/
def mimeLookup (fileName : String) : Option String :=
  match extOf fileName with
  | some "pdf" => some "application/pdf"
  | some "png" => some "image/png"
  | some "jpg" => some "image/jpeg"
  | some "jpeg" => some "image/jpeg"
  | some "gif" => some "image/gif"
  | some "txt" => some "text/plain"
  | some "json" => some "application/json"
  | some "docx" =>
      some "application/vnd.openxmlformats-officedocument.wordprocessingml.document"
  | _ => none

/-- Embeds `getMimeType`: `mime.lookup(fileName) || 'application/octet-stream'`. -/
def getMimeType (fileName : String) : String :=
  (mimeLookup fileName).getD "application/octet-stream"

/-- Embeds the metadata fetch `file.getMetadata()` for one listing entry:
it either yields the metadata or throws. -/
def getGCPMetadata (f : GCPFileEntry) : Except String GCPMetadata :=
  match f.metadata with
  | some m => .ok m
  | none => .error ("Failed to get metadata for file " ++ f.name)

/-- Models the call `this.getMimeType(fileName)` made inside
`listGCPFiles`: `getMimeType` is declared `static`, so it is not on the
instance, and the call throws a TypeError whose message the outer catch
reads as `this.getMimeType is not a function`. -/
def thisGetMimeType (fileName : String) : Except String String :=
  .error "this.getMimeType is not a function"

/-- Descriptor built by the success branch of the listing loop. JS `||`
treats an absent or empty `contentType` as falsy and then evaluates
`this.getMimeType(file.name)`, which throws. -/
def gcpOkDescriptor (f : GCPFileEntry) (m : GCPMetadata) :
    Except String FileDescriptor := do
  let ct ← match m.contentType with
    | some s => if s = "" then thisGetMimeType f.name else .ok s
    | none => thisGetMimeType f.name
  .ok { fileName := f.name
        size := m.size.getD 0
        lastModified := m.updated.orElse (fun _ => m.timeCreated)
        contentType := ct
        etag := m.etag
        md5Hash := m.md5Hash }

/-- Descriptor the catch branch of the listing loop tries to build:
zeroed and defaulted fields — except that its content type comes from
`this.getMimeType(file.name)`, which throws, so the catch branch always
fails before pushing anything. -/
def gcpFallbackDescriptor (now : Nat) (f : GCPFileEntry) :
    Except String FileDescriptor := do
  let ct ← thisGetMimeType f.name
  .ok { fileName := f.name
        size := 0
        lastModified := some now
        contentType := ct
        etag := ""
        md5Hash := "" }

/-- Embeds the per-file loop of `listGCPFiles`: an error in the
per-entry try (the metadata fetch, or the success branch's own
`this.getMimeType` call) is caught and routed to the fallback push, but
an error thrown inside the catch block escapes it and aborts the loop. -/
def listGCPLoop (now : Nat) :
    List GCPFileEntry → Except String (List FileDescriptor)
  | [] => .ok []
  | f :: rest => do
      let d ← match getGCPMetadata f with
        | .ok m =>
            match gcpOkDescriptor f m with
            | .ok d => .ok d
            | .error _ => gcpFallbackDescriptor now f
        | .error _ => gcpFallbackDescriptor now f
      let ds ← listGCPLoop now rest
      .ok (d :: ds)

/-- Embeds `listGCPFiles` on a bucket whose `getFiles` call returned the
given entries (capped at 1000 by the source's `maxResults`): the outer
catch rewraps any escaped error as `Failed to list files: <message>`. -/
def listGCPFiles (files : List GCPFileEntry) (now : Nat) :
    Except String (List FileDescriptor) :=
  match listGCPLoop now files with
  | .ok l => .ok l
  | .error msg => .error ("Failed to list files: " ++ msg)

/-! ## Redaction service (redactionService.js)

A decoded PDF is a list of pages, each carrying its size in points and
the rectangles drawn onto it. The raw `pdfBuffer` stored in a session is
modelled by the decoded document value itself: `PDFDocument.load`
produces a fresh in-memory copy of it, and `pdfDoc.save` produces the
encoded output, so both are the identity on this model. -/

/-- RGB colour produced by `rgb(r, g, b)` with components in `[0,1]`. -/
structure RGBColor where
  r : ℚ
  g : ℚ
  b : ℚ
  deriving DecidableEq, Repr

/-- One rectangle drawn onto a page by `page.drawRectangle`. -/
structure DrawnRect where
  x : ℚ
  y : ℚ
  width : ℚ
  height : ℚ
  color : RGBColor
  opacity : ℚ
  deriving DecidableEq, Repr

/-- One page of a decoded PDF: its size and the rectangles drawn on it. -/
structure PDFPage where
  width : ℚ
  height : ℚ
  rects : List DrawnRect
  deriving DecidableEq, Repr

/-- Decoded PDF document. -/
structure PDFDoc where
  pages : List PDFPage
  deriving DecidableEq, Repr

/-- Caller-supplied redaction rectangle. `pageNumber` is an integer
(1-based); the coordinates are dual-mode JS numbers. -/
structure Redaction where
  pageNumber : Int
  x : ℚ
  y : ℚ
  width : ℚ
  height : ℚ
  deriving DecidableEq, Repr

/-- Options object passed to `applyRedactions`; `color` defaults to
`"#000000"` when absent. -/
structure RedactionOptions where
  color : Option String
  deriving DecidableEq, Repr

/-- Value of one hexadecimal digit. Only valid 6-hex-digit colour strings
reach `parseColor` (the route enforces the shape), so invalid digits are
given value 0 rather than modelling NaN propagation. -/
def hexDigitVal (c : Char) : Nat :=
  if '0' ≤ c ∧ c ≤ '9' then c.toNat - 48
  else if 'a' ≤ c ∧ c ≤ 'f' then c.toNat - 87
  else if 'A' ≤ c ∧ c ≤ 'F' then c.toNat - 55
  else 0

/-- Embeds `parseColor`: strips `#`, parses the three two-digit hex
components, and divides each by 255. -/
def parseColor (colorString : String) : RGBColor :=
  let hex := (colorString.replace "#" "").data
  let comp := fun (i : Nat) =>
    ((16 * hexDigitVal (hex.getD i '0') + hexDigitVal (hex.getD (i + 1) '0') : ℚ) / 255)
  { r := comp 0, g := comp 2, b := comp 4 }

/-- Embeds `convertCoordinate`: a value in `[0,1]` is scaled by the page
dimension, anything else is returned unchanged. -/
def convertCoordinate (value maxValue : ℚ) : ℚ :=
  if 0 ≤ value ∧ value ≤ 1 then value * maxValue else value

/-- Errors thrown by the redaction service. -/
inductive RedactionError where
  | pageNotFound (pageNumber : Int)
  | sessionNotFoundOrExpired
  deriving DecidableEq, Repr

/-- Rectangle drawn by `applyRedactionToPage` once the page is found:
coordinates resolved against the page size, the Y-axis flipped
(`pageHeight - y - height`), full opacity. -/
def drawnRectFor (page : PDFPage) (redaction : Redaction)
    (options : RedactionOptions) : DrawnRect :=
  let x := convertCoordinate redaction.x page.width
  let y := convertCoordinate redaction.y page.height
  let width := convertCoordinate redaction.width page.width
  let height := convertCoordinate redaction.height page.height
  { x := x
    y := page.height - y - height
    width := width
    height := height
    color := parseColor (options.color.getD "#000000")
    opacity := 1 }

/-- Embeds `applyRedactionToPage`: indexes `getPages()` at
`pageNumber - 1`, throwing when the page does not exist, and appends the
drawn rectangle to that page. -/
def applyRedactionToPage (pdfDoc : PDFDoc) (redaction : Redaction)
    (options : RedactionOptions) : Except RedactionError PDFDoc :=
  let pageIndex := redaction.pageNumber - 1
  if h : 0 ≤ pageIndex ∧ pageIndex.toNat < pdfDoc.pages.length then
    let page := pdfDoc.pages.get ⟨pageIndex.toNat, h.2⟩
    .ok { pages := pdfDoc.pages.set pageIndex.toNat
            { page with rects := page.rects ++ [drawnRectFor page redaction options] } }
  else
    .error (.pageNotFound redaction.pageNumber)

/-- Embeds the `for (const redaction of redactions)` loop of
`applyRedactions`: applies each rectangle in turn, propagating the first
thrown error. -/
def applyAllRedactions : PDFDoc → List Redaction → RedactionOptions →
    Except RedactionError PDFDoc
  | doc, [], _ => .ok doc
  | doc, r :: rest, options =>
      match applyRedactionToPage doc r options with
      | .ok d => applyAllRedactions d rest options
      | .error e => .error e

/-- Page info recorded by `preparePDFForRedaction` for each page. -/
structure PageInfo where
  pageNumber : Nat
  width : Nat
  height : Nat
  previewUrl : String
  deriving DecidableEq, Repr

/-- Session record stored in the cache by `preparePDFForRedaction`. -/
structure SessionData where
  sessionId : String
  fileName : String
  bucketName : String
  platform : Option String
  pdfBuffer : PDFDoc
  pageCount : Nat
  pages : List PageInfo
  createdAt : Nat
  redactions : List Redaction
  redactedAt : Option Nat
  deriving DecidableEq, Repr

/-- One cache slot of the NodeCache session cache: the stored value and
its absolute expiry time (`set` time plus the 3600-second stdTTL). -/
structure CacheEntry where
  data : SessionData
  expiresAt : Nat
  deriving DecidableEq, Repr

/-- Session cache (`new NodeCache({stdTTL: 3600})`), keyed by session id.
NodeCache's default `useClones` means values are copied on `get`/`set`,
which Lean's value semantics gives for free. -/
abbrev SessionCache := List (String × CacheEntry)

/-- NodeCache `set`: stores the value under the key with expiry one hour
from now, replacing any previous entry. -/
def cacheSet (cache : SessionCache) (key : String) (d : SessionData)
    (now : Nat) : SessionCache :=
  (key, ⟨d, now + 3600⟩) :: cache.filter (fun kv => kv.1 ≠ key)

/-- NodeCache `get`: the lazy expiry check — an entry whose expiry time
lies strictly in the past is treated as missing. -/
def cacheGet (cache : SessionCache) (key : String) (now : Nat) :
    Option SessionData :=
  match cache.find? (fun kv => kv.1 == key) with
  | some (_, e) => if e.expiresAt < now then none else some e.data
  | none => none

/-- Successful result of `applyRedactions`; the encoded
`redactedPdfBase64` payload is modelled by the redacted document value. -/
structure ApplyResult where
  redactedPdf : PDFDoc
  deriving DecidableEq, Repr

/-- Embeds `applyRedactions`: looks the session up (throwing the
not-found-or-expired error on a miss), decodes a fresh copy of the
stored bytes, draws every rectangle of this call onto that copy, then
replaces the session's redaction list, stamps `redactedAt`, re-`set`s the
session, and returns the encoded output. -/
def applyRedactions (cache : SessionCache) (now : Nat) (sessionId : String)
    (redactions : List Redaction) (options : RedactionOptions) :
    Except RedactionError (ApplyResult × SessionCache) :=
  match cacheGet cache sessionId now with
  | none => .error .sessionNotFoundOrExpired
  | some sessionData =>
      let pdfDoc := sessionData.pdfBuffer
      match applyAllRedactions pdfDoc redactions options with
      | .error e => .error e
      | .ok redactedDoc =>
          let sessionData2 :=
            { sessionData with redactions := redactions, redactedAt := some now }
          .ok ({ redactedPdf := redactedDoc }, cacheSet cache sessionId sessionData2 now)

/-- Result of `validateRedaction`. -/
structure ValidationResult where
  isValid : Bool
  errors : List String
  deriving DecidableEq, Repr

/-- Embeds `validateRedaction`: runs all five checks on the rectangle,
collecting every failure message into one list (no early return). The
source defines this validator but never calls it. -/
def validateRedaction (redaction : Redaction) (pageWidth pageHeight : ℚ) :
    ValidationResult :=
  let errors :=
    (if redaction.pageNumber < 1 then ["Invalid page number"] else []) ++
    (if redaction.x < 0 ∨ redaction.x > pageWidth then
       ["X coordinate out of bounds"] else []) ++
    (if redaction.y < 0 ∨ redaction.y > pageHeight then
       ["Y coordinate out of bounds"] else []) ++
    (if redaction.width ≤ 0 ∨ redaction.x + redaction.width > pageWidth then
       ["Invalid width or extends beyond page"] else []) ++
    (if redaction.height ≤ 0 ∨ redaction.y + redaction.height > pageHeight then
       ["Invalid height or extends beyond page"] else [])
  { isValid := errors.length == 0, errors := errors }

/-! ## Interleaving model of concurrent `applyRedactions` calls

`applyRedactions` is `async`: it suspends at each `await`. Its only
touches of the shared session cache are the synchronous `get` at the top
and the synchronous `set` at the end, so an in-flight call is captured by
which of its two shared-state-relevant steps have run: step one performs
the cache `get` and decodes the local document copy; step two draws the
rectangles on the local copy, saves it, writes the session back and
returns. Two concurrent calls are run under an explicit schedule that
says which call advances next. -/

deriving instance DecidableEq for Except

/-- Progress of one in-flight `applyRedactions` call. After step one the
call holds its own clone of the session record (NodeCache `get` clones). -/
inductive ApplyPhase where
  | ready
  | loaded (sessionData : SessionData)
  | finished (result : Except RedactionError PDFDoc)
  deriving DecidableEq, Repr

/-- One `applyRedactions` call: its arguments, the time it runs at, and
its current progress. -/
structure ApplyCall where
  sessionId : String
  redactions : List Redaction
  options : RedactionOptions
  time : Nat
  phase : ApplyPhase
  deriving DecidableEq, Repr

/-- Advances one call by one step against the shared cache. A finished
call is left unchanged. -/
def stepApply (cache : SessionCache) (p : ApplyCall) : SessionCache × ApplyCall :=
  match p.phase with
  | .ready =>
      match cacheGet cache p.sessionId p.time with
      | none => (cache, { p with phase := .finished (.error .sessionNotFoundOrExpired) })
      | some sd => (cache, { p with phase := .loaded sd })
  | .loaded sd =>
      match applyAllRedactions sd.pdfBuffer p.redactions p.options with
      | .error e => (cache, { p with phase := .finished (.error e) })
      | .ok redactedDoc =>
          let sd2 := { sd with redactions := p.redactions, redactedAt := some p.time }
          (cacheSet cache p.sessionId sd2 p.time,
           { p with phase := .finished (.ok redactedDoc) })
  | .finished _ => (cache, p)

/-- Shared cache plus two in-flight `applyRedactions` calls. -/
structure TwoApplyState where
  cache : SessionCache
  p1 : ApplyCall
  p2 : ApplyCall
  deriving DecidableEq, Repr

/-- Runs the two calls under a schedule: `false` advances the first
call, `true` the second. -/
def runSchedule : TwoApplyState → List Bool → TwoApplyState
  | st, [] => st
  | st, false :: rest =>
      let s := stepApply st.cache st.p1
      runSchedule { st with cache := s.1, p1 := s.2 } rest
  | st, true :: rest =>
      let s := stepApply st.cache st.p2
      runSchedule { st with cache := s.1, p2 := s.2 } rest

/-- Counts the points where a schedule switches between the two calls. -/
def alternations : List Bool → Nat
  | a :: b :: rest => (if a ≠ b then 1 else 0) + alternations (b :: rest)
  | _ => 0

/-- A schedule is serialized when one call runs all its steps before the
other starts, i.e. the schedule switches caller at most once. -/
def isSerialized (sched : List Bool) : Bool :=
  alternations sched ≤ 1

/-- Holds when a call has finished successfully. -/
def phaseOk : ApplyPhase → Bool
  | .finished (.ok _) => true
  | _ => false

/-! ## Shared sample data and helper lemmas -/

/-- Decides whether an `Except` value is a success. -/
def exceptOk {ε α : Type} : Except ε α → Bool
  | .ok _ => true
  | .error _ => false

/-- Extracts the output document of a successfully finished call. -/
def phaseDoc : ApplyPhase → Option PDFDoc
  | .finished (.ok d) => some d
  | _ => none

/-- Invariant: every cache entry stored under the session key still
holds the original document bytes (write-backs replace only the
redaction metadata, never the bytes). -/
def cacheBufOk (cache : SessionCache) (sid : String) (B : PDFDoc) : Prop :=
  ∀ kv ∈ cache, kv.1 = sid → kv.2.data.pdfBuffer = B

/-- Invariant of one in-flight call: it targets the session with
unchanged arguments, any loaded copy holds the original bytes, and a
successful finish means the output is exactly this call's rectangles
applied to the original bytes. -/
def procOk (sid : String) (B : PDFDoc) (rs : List Redaction)
    (os : RedactionOptions) (p : ApplyCall) : Prop :=
  p.sessionId = sid ∧ p.redactions = rs ∧ p.options = os ∧
  match p.phase with
  | .ready => True
  | .loaded sd => sd.pdfBuffer = B
  | .finished (.ok d) => applyAllRedactions B rs os = .ok d
  | .finished (.error _) => True

/-- Decides whether a list of part numbers is in strictly ascending
order. -/
def strictAscending : List Nat → Bool
  | a :: b :: rest => a < b && strictAscending (b :: rest)
  | _ => true

/-- Sample one-page document, 600 by 800 points, with nothing drawn. -/
def sampleDoc : PDFDoc := ⟨[⟨600, 800, []⟩]⟩

/-- Sample prepared session holding `sampleDoc`, created at time 0. -/
def sampleSession : SessionData :=
  { sessionId := "sess1"
    fileName := "doc.pdf"
    bucketName := "bucket"
    platform := some "gcp"
    pdfBuffer := sampleDoc
    pageCount := 1
    pages := [⟨1, 600, 800, "/api/redaction/session/sess1/page/1/preview"⟩]
    createdAt := 0
    redactions := []
    redactedAt := none }

/-- Sample cache holding `sampleSession`, stored at time 0. -/
def sampleCache : SessionCache := cacheSet [] "sess1" sampleSession 0

theorem cacheGet_cacheSet_self (cache : SessionCache) (key : String)
    (d : SessionData) (t0 t : Nat) :
    cacheGet (cacheSet cache key d t0) key t =
      if t0 + 3600 < t then none else some d := by
  simp [cacheGet, cacheSet, List.find?]

theorem applyRedactionToPage_ok (doc : PDFDoc) (r : Redaction)
    (opts : RedactionOptions) (h1 : 1 ≤ r.pageNumber)
    (h2 : r.pageNumber ≤ (doc.pages.length : Int)) :
    ∃ d, applyRedactionToPage doc r opts = .ok d ∧
      d.pages.length = doc.pages.length := by
  have hpos : 0 ≤ r.pageNumber - 1 := by omega
  have hlt : (r.pageNumber - 1).toNat < doc.pages.length := by omega
  simp only [applyRedactionToPage]
  rw [dif_pos ⟨hpos, hlt⟩]
  exact ⟨_, rfl, by simp⟩

theorem applyAllRedactions_ok (doc : PDFDoc) (reds : List Redaction)
    (opts : RedactionOptions)
    (h : ∀ r ∈ reds, 1 ≤ r.pageNumber ∧ r.pageNumber ≤ (doc.pages.length : Int)) :
    ∃ d, applyAllRedactions doc reds opts = .ok d ∧
      d.pages.length = doc.pages.length := by
  induction reds generalizing doc with
  | nil => exact ⟨doc, rfl, rfl⟩
  | cons r rest ih =>
      obtain ⟨hr1, hr2⟩ := h r (List.mem_cons_self r rest)
      obtain ⟨d, hd, hlen⟩ := applyRedactionToPage_ok doc r opts hr1 hr2
      obtain ⟨d2, hd2, hlen2⟩ := ih d (by
        intro r' hr'
        obtain ⟨g1, g2⟩ := h r' (List.mem_cons_of_mem r hr')
        exact ⟨g1, by rw [hlen]; exact g2⟩)
      refine ⟨d2, ?_, by rw [hlen2, hlen]⟩
      simp only [applyAllRedactions, hd, hd2]

/-! ## Claims about the storage gateway -/

/-- C1: for Provider A (GCP resumable-style), `completeMultipartUpload`
is claimed to perform a single full upload of the session's bytes so
that the object stored under (bucket, key) holds the uploaded data. The
embedded code shows the opposite: `completeGCPResumableUpload` returns a
success acknowledgement and leaves the provider store untouched, so
after initiate / uploadPart / complete nothing at all is stored under
(bucket, key). -/
theorem gcp_complete_uploads_nothing :
    (∀ (b f u : String) (st : GCPState),
        (completeGCPResumableUpload b f u st).1 = st ∧
        (completeGCPResumableUpload b f u st).2.success = true) ∧
    (let r1 := initiateGCPResumableUpload "bucket" "file.txt" "text/plain"
                 "1712000000000" "abc123def" []
     let r2 := uploadGCPChunk "bucket" "file.txt" r1.2 1 [104, 105] r1.1
     let r3 := completeGCPResumableUpload "bucket" "file.txt" r1.2 r2.1
     r3.2.success = true ∧ r3.1 = [] ∧
       gcpLookup r3.1 "bucket" "file.txt" = none) := by
  exact ⟨fun b f u st => ⟨rfl, rfl⟩, rfl, rfl, rfl⟩

/-- C3 counterexample: completing an AWS multipart upload with the
shuffled parts list [partNumber 2, partNumber 1] sends the provider the
part numbers in exactly that order, which is not ascending — the claim
that `complete` sends a list sorted ascending by `partNumber` regardless
of caller order is false. -/
theorem aws_complete_shuffled_stays_shuffled :
    (completeAWSMultipartUpload "bucket" "file.bin" "uid-1"
        [⟨2, "etag-2"⟩, ⟨1, "etag-1"⟩]).Parts.map AWSCompletedPart.PartNumber
      = [2, 1] ∧
    strictAscending
        ((completeAWSMultipartUpload "bucket" "file.bin" "uid-1"
          [⟨2, "etag-2"⟩, ⟨1, "etag-1"⟩]).Parts.map AWSCompletedPart.PartNumber)
      = false := by
  exact ⟨rfl, by decide⟩

/-- C3 amended: for Providers B and C, `complete` passes the part
identifiers to the provider in exactly the caller-supplied order — both
the part numbers and the tags/tokens are forwarded verbatim — so the
provider sees an ascending list precisely when the caller supplied one. -/
theorem multipart_complete_preserves_caller_order (b f u : String)
    (parts : List PartRef) (st : AzureState) :
    (completeAWSMultipartUpload b f u parts).Parts.map AWSCompletedPart.PartNumber
        = parts.map PartRef.partNumber ∧
    (completeAWSMultipartUpload b f u parts).Parts.map AWSCompletedPart.ETag
        = parts.map PartRef.etag ∧
    (completeAzureBlockUpload b f u parts st).1.committed
        = st.committed ++ [⟨f, parts.map PartRef.etag⟩] ∧
    strictAscending
        ((completeAWSMultipartUpload b f u parts).Parts.map AWSCompletedPart.PartNumber)
      = strictAscending (parts.map PartRef.partNumber) := by
  have h1 : (completeAWSMultipartUpload b f u parts).Parts.map AWSCompletedPart.PartNumber
      = parts.map PartRef.partNumber := by
    simp [completeAWSMultipartUpload]
  refine ⟨h1, ?_, rfl, by rw [h1]⟩
  simp [completeAWSMultipartUpload]

/-- C5: for Provider C, `uploadAzureBlock` derives its block identifier
from the part number alone (zero-padded to six characters, then
base64-encoded) and returns it as the part token, and
`completeAzureBlockUpload` commits exactly the caller-supplied token
values in the order given rather than regenerating them. -/
theorem azure_block_token_roundtrip :
    (∀ (b f u b' f' u' : String) (n : Nat) (buf buf' : Bytes)
        (st st' : AzureState),
        (uploadAzureBlock b f u n buf st).2 = (uploadAzureBlock b' f' u' n buf' st').2 ∧
        (uploadAzureBlock b f u n buf st).2 = azureBlockId n) ∧
    azureBlockId 1 = "MDAwMDAx" ∧
    azureBlockId 42 = "MDAwMDQy" ∧
    (∀ (b f u : String) (parts : List PartRef) (st : AzureState),
        (completeAzureBlockUpload b f u parts st).1.committed =
          st.committed ++ [⟨f, parts.map PartRef.etag⟩]) := by
  exact ⟨fun b f u b' f' u' n buf buf' st st' => ⟨rfl, rfl⟩,
    by decide, by decide, fun b f u parts st => rfl⟩

/-! ## Claims about coordinate handling -/

/-- C6: dual-mode coordinate resolution — a value in `[0,1]` resolves to
the fraction of the page dimension, any other non-negative value
resolves to itself; in particular 0.5 and 0.25 on a 600pt dimension give
300 and 150, while 300 and 150 stay unchanged. -/
theorem convert_coordinate_dual_mode (v d : ℚ) :
    (0 ≤ v → v ≤ 1 → convertCoordinate v d = v * d) ∧
    (1 < v → convertCoordinate v d = v) ∧
    convertCoordinate 0.5 600 = 300 ∧
    convertCoordinate 0.25 600 = 150 ∧
    convertCoordinate 300 600 = 300 ∧
    convertCoordinate 150 600 = 150 := by
  refine ⟨?_, ?_, ?_, ?_, ?_, ?_⟩
  · intro h0 h1; simp [convertCoordinate, h0, h1]
  · intro h
    have hn : ¬ (0 ≤ v ∧ v ≤ 1) := by rintro ⟨-, h1⟩; linarith
    simp [convertCoordinate, hn]
  · norm_num [convertCoordinate]
  · norm_num [convertCoordinate]
  · norm_num [convertCoordinate]
  · norm_num [convertCoordinate]

/-- C6 witness: the general dual-mode statement applied at 0.5 on a
600pt page and at the absolute coordinate 300. -/
theorem convert_coordinate_dual_mode_witness :
    convertCoordinate 0.5 600 = (0.5 : ℚ) * 600 ∧
    convertCoordinate 300 600 = 300 :=
  ⟨(convert_coordinate_dual_mode 0.5 600).1 (by norm_num) (by norm_num),
   (convert_coordinate_dual_mode 300 600).2.1 (by norm_num)⟩

/-! ## Claims about listing and validation -/

/-- C4: the claim says a metadata-fetch failure for one entry must not
abort the listing — a zeroed/defaulted descriptor should be emitted and
the remaining entries listed. The catch block does try to build exactly
that descriptor, but it calls `this.getMimeType` although `getMimeType`
is static, so the catch block itself throws and the whole listing aborts
with the wrapped TypeError: at the failing input the two-entry listing
returns an error instead of a partial result, while the same listing
without the failing entry succeeds, and the static `getMimeType` the
catch meant to call would have produced the claimed extension-derived
content type. -/
theorem list_gcp_metadata_failure_aborts :
    listGCPFiles
        [⟨"a.pdf", none⟩,
         ⟨"b.txt", some ⟨some 10, some 5, none, some "text/plain", "W1", "h1"⟩⟩] 99
      = .error "Failed to list files: this.getMimeType is not a function" ∧
    listGCPFiles
        [⟨"b.txt", some ⟨some 10, some 5, none, some "text/plain", "W1", "h1"⟩⟩] 99
      = .ok [⟨"b.txt", 10, some 5, "text/plain", "W1", "h1"⟩] ∧
    getMimeType "a.pdf" = "application/pdf" := by
  exact ⟨rfl, rfl, by decide⟩

/-- C2: the spec claims every `apply` call detects all rectangle
violations before any mutation and returns them together as a list. The
code's `validateRedaction` does collect all violations of a rectangle
into a list — but `applyRedactions` never calls it: with one rectangle
at pageNumber 0 and another exceeding the 600pt page width, `apply`
throws the single page-not-found error for the first rectangle (no
violation list), even though the dead validator flags both rectangles;
and with the width-violating rectangle alone, `apply` silently succeeds
and draws it. -/
theorem apply_redactions_skips_validation :
    applyRedactions sampleCache 0 "sess1"
        [⟨0, 10, 10, 50, 50⟩, ⟨1, 550, 10, 100, 50⟩] ⟨none⟩
      = .error (.pageNotFound 0) ∧
    (validateRedaction ⟨0, 10, 10, 50, 50⟩ 600 800).isValid = false ∧
    (validateRedaction ⟨1, 550, 10, 100, 50⟩ 600 800).isValid = false ∧
    (validateRedaction ⟨1, 550, 10, 100, 50⟩ 600 800).errors
      = ["Invalid width or extends beyond page"] ∧
    exceptOk (applyRedactions sampleCache 0 "sess1"
        [⟨1, 550, 10, 100, 50⟩] ⟨none⟩) = true := by
  exact ⟨rfl, by norm_num [validateRedaction], by norm_num [validateRedaction],
    by norm_num [validateRedaction], rfl⟩

/-! ## Claims about the session lifecycle -/

/-- C7: session expiry is a one-hour TTL checked lazily on access —
`apply` against a session last stored more than 3600 seconds ago returns
the session-not-found-or-expired error (a routine error value, not a
crash), while `apply` 59 minutes (3540 seconds) after the last store
succeeds, provided every rectangle addresses an existing page. -/
theorem session_expiry_lazy_ttl (base : SessionCache) (sid : String)
    (sd : SessionData) (t0 t1 : Nat) (reds : List Redaction)
    (opts : RedactionOptions)
    (hvalid : ∀ r ∈ reds, 1 ≤ r.pageNumber ∧
        r.pageNumber ≤ (sd.pdfBuffer.pages.length : Int)) :
    (t0 + 3600 < t1 →
        applyRedactions (cacheSet base sid sd t0) t1 sid reds opts =
          .error .sessionNotFoundOrExpired) ∧
    (t1 = t0 + 3540 →
        ∃ res c2, applyRedactions (cacheSet base sid sd t0) t1 sid reds opts =
          .ok (res, c2)) := by
  constructor
  · intro hexp
    have hget : cacheGet (cacheSet base sid sd t0) sid t1 = none := by
      rw [cacheGet_cacheSet_self, if_pos hexp]
    simp only [applyRedactions, hget]
  · rintro rfl
    have hget : cacheGet (cacheSet base sid sd t0) sid (t0 + 3540) = some sd := by
      rw [cacheGet_cacheSet_self, if_neg (by omega)]
    obtain ⟨d, hd, -⟩ := applyAllRedactions_ok sd.pdfBuffer reds opts hvalid
    refine ⟨⟨d⟩, cacheSet (cacheSet base sid sd t0) sid
        { sd with redactions := reds, redactedAt := some (t0 + 3540) } (t0 + 3540), ?_⟩
    simp only [applyRedactions, hget, hd]

/-- C7 witness: with the sample session stored at time 0, `apply` at
time 3601 fails with the expiry error and `apply` at time 3540 succeeds. -/
theorem session_expiry_lazy_ttl_witness :
    (applyRedactions (cacheSet [] "sess1" sampleSession 0) 3601 "sess1"
        [⟨1, 10, 10, 50, 50⟩] ⟨none⟩ = .error .sessionNotFoundOrExpired) ∧
    (∃ res c2, applyRedactions (cacheSet [] "sess1" sampleSession 0) 3540 "sess1"
        [⟨1, 10, 10, 50, 50⟩] ⟨none⟩ = .ok (res, c2)) := by
  have hvalid : ∀ r ∈ [(⟨1, 10, 10, 50, 50⟩ : Redaction)],
      1 ≤ r.pageNumber ∧ r.pageNumber ≤ ((sampleSession.pdfBuffer.pages.length : Nat) : Int) := by
    intro r hr
    obtain rfl := List.mem_singleton.mp hr
    exact ⟨by norm_num, by norm_num [sampleSession, sampleDoc]⟩
  exact ⟨(session_expiry_lazy_ttl [] "sess1" sampleSession 0 3601
            [⟨1, 10, 10, 50, 50⟩] ⟨none⟩ hvalid).1 (by norm_num),
         (session_expiry_lazy_ttl [] "sess1" sampleSession 0 3540
            [⟨1, 10, 10, 50, 50⟩] ⟨none⟩ hvalid).2 (by norm_num)⟩

/-- C8: after every successful `apply` on an existing session, the
session's stored redaction list equals exactly the rectangles of that
call — replaced, not merged — and `redactedAt` is stamped with the time
of the call. -/
theorem apply_replaces_redaction_list (cache : SessionCache) (now : Nat)
    (sid : String) (reds : List Redaction) (opts : RedactionOptions)
    (res : ApplyResult) (c2 : SessionCache)
    (h : applyRedactions cache now sid reds opts = .ok (res, c2)) :
    ∃ sd2, cacheGet c2 sid now = some sd2 ∧ sd2.redactions = reds ∧
      sd2.redactedAt = some now := by
  cases hget : cacheGet cache sid now with
  | none =>
      simp only [applyRedactions, hget] at h
      exact Except.noConfusion h
  | some sd =>
      cases happ : applyAllRedactions sd.pdfBuffer reds opts with
      | error e =>
          simp only [applyRedactions, hget, happ] at h
          exact Except.noConfusion h
      | ok d =>
          simp only [applyRedactions, hget, happ, Except.ok.injEq, Prod.mk.injEq] at h
          obtain ⟨h1, h2⟩ := h
          refine ⟨{ sd with redactions := reds, redactedAt := some now }, ?_, rfl, rfl⟩
          rw [← h2, cacheGet_cacheSet_self, if_neg (by omega)]

/-- C8 witness: a successful concrete `apply` leaves the session holding
exactly this call's rectangle and a stamped `redactedAt`. -/
theorem apply_replaces_redaction_list_witness :
    ∃ sd2, cacheGet (((applyRedactions sampleCache 0 "sess1"
        [⟨1, 10, 10, 50, 50⟩] ⟨none⟩).toOption.getD (⟨sampleDoc⟩, [])).2) "sess1" 0
      = some sd2 ∧
      sd2.redactions = [⟨1, 10, 10, 50, 50⟩] ∧ sd2.redactedAt = some 0 :=
  apply_replaces_redaction_list sampleCache 0 "sess1" [⟨1, 10, 10, 50, 50⟩] ⟨none⟩
    ((applyRedactions sampleCache 0 "sess1" [⟨1, 10, 10, 50, 50⟩] ⟨none⟩).toOption.getD
        (⟨sampleDoc⟩, [])).1
    ((applyRedactions sampleCache 0 "sess1" [⟨1, 10, 10, 50, 50⟩] ⟨none⟩).toOption.getD
        (⟨sampleDoc⟩, [])).2
    rfl

/-- C10: a successful `apply` changes nothing in the stored session
except the redaction list and `redactedAt` — the stored document bytes,
page count, page list, creation time, file name, bucket name, platform
and session id are untouched — and because each `apply` decodes a fresh
copy of the stored bytes, the output of this call, and of any later
successful `apply` on the same session, equals its own rectangles
applied to the original document, with no accumulation across calls. -/
theorem apply_frame_and_fresh_copy (cache : SessionCache) (now : Nat)
    (sid : String) (sd0 : SessionData) (reds : List Redaction)
    (opts : RedactionOptions) (res : ApplyResult) (c2 : SessionCache)
    (hget : cacheGet cache sid now = some sd0)
    (h : applyRedactions cache now sid reds opts = .ok (res, c2)) :
    applyAllRedactions sd0.pdfBuffer reds opts = .ok res.redactedPdf ∧
    (∃ sd2, cacheGet c2 sid now = some sd2 ∧
      sd2.pdfBuffer = sd0.pdfBuffer ∧ sd2.pageCount = sd0.pageCount ∧
      sd2.pages = sd0.pages ∧ sd2.createdAt = sd0.createdAt ∧
      sd2.fileName = sd0.fileName ∧ sd2.bucketName = sd0.bucketName ∧
      sd2.platform = sd0.platform ∧ sd2.sessionId = sd0.sessionId ∧
      sd2.redactions = reds ∧ sd2.redactedAt = some now) ∧
    (∀ now2 reds2 opts2 res2 c3,
        applyRedactions c2 now2 sid reds2 opts2 = .ok (res2, c3) →
        applyAllRedactions sd0.pdfBuffer reds2 opts2 = .ok res2.redactedPdf) := by
  cases happ : applyAllRedactions sd0.pdfBuffer reds opts with
  | error e =>
      simp only [applyRedactions, hget, happ] at h
      exact Except.noConfusion h
  | ok d =>
      simp only [applyRedactions, hget, happ, Except.ok.injEq, Prod.mk.injEq] at h
      obtain ⟨h1, h2⟩ := h
      subst h1
      refine ⟨rfl, ?_, ?_⟩
      · refine ⟨{ sd0 with redactions := reds, redactedAt := some now }, ?_,
          rfl, rfl, rfl, rfl, rfl, rfl, rfl, rfl, rfl, rfl⟩
        rw [← h2, cacheGet_cacheSet_self, if_neg (by omega)]
      · intro now2 reds2 opts2 res2 c3 h3
        have hget2 : cacheGet c2 sid now2 =
            if now + 3600 < now2 then none
            else some { sd0 with redactions := reds, redactedAt := some now } := by
          rw [← h2, cacheGet_cacheSet_self]
        by_cases hlate : now + 3600 < now2
        · rw [if_pos hlate] at hget2
          simp only [applyRedactions, hget2] at h3
          exact Except.noConfusion h3
        · rw [if_neg hlate] at hget2
          cases happ2 : applyAllRedactions sd0.pdfBuffer reds2 opts2 with
          | error e2 =>
              simp only [applyRedactions, hget2, happ2] at h3
              exact Except.noConfusion h3
          | ok d2 =>
              simp only [applyRedactions, hget2, happ2, Except.ok.injEq,
                Prod.mk.injEq] at h3
              obtain ⟨h31, h32⟩ := h3
              subst h31
              rfl

/-- C10 witness: a concrete successful `apply` on the sample session
leaves every field but the redaction list and `redactedAt` unchanged and
produces its own rectangles applied to the original document. -/
theorem apply_frame_and_fresh_copy_witness :
    applyAllRedactions sampleSession.pdfBuffer [⟨1, 10, 10, 50, 50⟩] ⟨none⟩ =
      .ok (((applyRedactions sampleCache 0 "sess1" [⟨1, 10, 10, 50, 50⟩]
        ⟨none⟩).toOption.getD (⟨sampleDoc⟩, [])).1.redactedPdf) ∧
    (∃ sd2, cacheGet (((applyRedactions sampleCache 0 "sess1"
        [⟨1, 10, 10, 50, 50⟩] ⟨none⟩).toOption.getD (⟨sampleDoc⟩, [])).2) "sess1" 0
        = some sd2 ∧
      sd2.pdfBuffer = sampleSession.pdfBuffer ∧
      sd2.pageCount = sampleSession.pageCount ∧
      sd2.pages = sampleSession.pages ∧
      sd2.createdAt = sampleSession.createdAt ∧
      sd2.fileName = sampleSession.fileName ∧
      sd2.bucketName = sampleSession.bucketName ∧
      sd2.platform = sampleSession.platform ∧
      sd2.sessionId = sampleSession.sessionId ∧
      sd2.redactions = [⟨1, 10, 10, 50, 50⟩] ∧ sd2.redactedAt = some 0) ∧
    (∀ now2 reds2 opts2 res2 c3,
        applyRedactions (((applyRedactions sampleCache 0 "sess1"
            [⟨1, 10, 10, 50, 50⟩] ⟨none⟩).toOption.getD (⟨sampleDoc⟩, [])).2)
            now2 "sess1" reds2 opts2 = .ok (res2, c3) →
        applyAllRedactions sampleSession.pdfBuffer reds2 opts2 =
          .ok res2.redactedPdf) :=
  apply_frame_and_fresh_copy sampleCache 0 "sess1" sampleSession
    [⟨1, 10, 10, 50, 50⟩] ⟨none⟩
    ((applyRedactions sampleCache 0 "sess1" [⟨1, 10, 10, 50, 50⟩] ⟨none⟩).toOption.getD
        (⟨sampleDoc⟩, [])).1
    ((applyRedactions sampleCache 0 "sess1" [⟨1, 10, 10, 50, 50⟩] ⟨none⟩).toOption.getD
        (⟨sampleDoc⟩, [])).2
    rfl rfl

/-! ## Claims about concurrent apply calls -/

theorem cacheGet_mem (cache : SessionCache) (key : String) (now : Nat)
    (sd : SessionData) (h : cacheGet cache key now = some sd) :
    ∃ e, (key, e) ∈ cache ∧ e.data = sd := by
  unfold cacheGet at h
  cases hf : cache.find? (fun kv => kv.1 == key) with
  | none => rw [hf] at h; exact Option.noConfusion h
  | some kv =>
      rw [hf] at h
      have hmem := List.mem_of_find?_eq_some hf
      have hpred := List.find?_some hf
      obtain ⟨k, e⟩ := kv
      have hk : k = key := by simpa using hpred
      subst hk
      dsimp only at h
      by_cases hexp : e.expiresAt < now
      · rw [if_pos hexp] at h; exact Option.noConfusion h
      · rw [if_neg hexp] at h
        exact ⟨e, hmem, (Option.some.injEq _ _).mp h⟩

theorem stepApply_preserves (cache : SessionCache) (p : ApplyCall)
    (sid : String) (B : PDFDoc) (rs : List Redaction) (os : RedactionOptions)
    (hc : cacheBufOk cache sid B) (hp : procOk sid B rs os p) :
    cacheBufOk (stepApply cache p).1 sid B ∧
      procOk sid B rs os (stepApply cache p).2 := by
  obtain ⟨hsid, hrs, hos, hph⟩ := hp
  cases hphase : p.phase with
  | ready =>
      cases hget : cacheGet cache p.sessionId p.time with
      | none =>
          simp only [stepApply, hphase, hget]
          exact ⟨hc, hsid, hrs, hos, trivial⟩
      | some sd =>
          simp only [stepApply, hphase, hget]
          refine ⟨hc, hsid, hrs, hos, ?_⟩
          obtain ⟨e, hmem, hdata⟩ := cacheGet_mem cache p.sessionId p.time sd hget
          have := hc (p.sessionId, e) hmem hsid
          rw [← hdata]
          exact this
  | loaded sd =>
      have hB : sd.pdfBuffer = B := by rw [hphase] at hph; exact hph
      cases happ : applyAllRedactions sd.pdfBuffer p.redactions p.options with
      | error e =>
          simp only [stepApply, hphase, happ]
          exact ⟨hc, hsid, hrs, hos, trivial⟩
      | ok d =>
          simp only [stepApply, hphase, happ]
          refine ⟨?_, hsid, hrs, hos, ?_⟩
          · intro kv hkv hk
            rcases List.mem_cons.mp hkv with heq | hmem
            · rw [heq]
              exact hB
            · exact hc kv (List.mem_of_mem_filter hmem) hk
          · rw [← hrs, ← hos, ← hB]
            exact happ
  | finished r =>
      simp only [stepApply, hphase]
      exact ⟨hc, hsid, hrs, hos, hph⟩

theorem runSchedule_preserves (sid : String) (B : PDFDoc)
    (r1 r2 : List Redaction) (o1 o2 : RedactionOptions) :
    ∀ (sched : List Bool) (st : TwoApplyState),
      cacheBufOk st.cache sid B → procOk sid B r1 o1 st.p1 →
      procOk sid B r2 o2 st.p2 →
      cacheBufOk (runSchedule st sched).cache sid B ∧
        procOk sid B r1 o1 (runSchedule st sched).p1 ∧
        procOk sid B r2 o2 (runSchedule st sched).p2 := by
  intro sched
  induction sched with
  | nil => exact fun st h1 h2 h3 => ⟨h1, h2, h3⟩
  | cons b rest ih =>
      intro st h1 h2 h3
      cases b with
      | false =>
          obtain ⟨hc, hp⟩ := stepApply_preserves st.cache st.p1 sid B r1 o1 h1 h2
          have hrec := ih ⟨(stepApply st.cache st.p1).1,
            (stepApply st.cache st.p1).2, st.p2⟩ hc hp h3
          simpa only [runSchedule] using hrec
      | true =>
          obtain ⟨hc, hp⟩ := stepApply_preserves st.cache st.p2 sid B r2 o2 h1 h3
          have hrec := ih ⟨(stepApply st.cache st.p2).1, st.p1,
            (stepApply st.cache st.p2).2⟩ hc h2 hp
          simpa only [runSchedule] using hrec

/-- C9 counterexample: two concurrent `apply` calls on the same session
are not serialized — under the strictly interleaved schedule
[P1, P2, P1, P2] both calls run to successful completion, so the second
caller neither blocks until the first finishes nor is rejected. -/
theorem concurrent_apply_interleaves :
    isSerialized [false, true, false, true] = false ∧
    phaseOk (runSchedule
        ⟨cacheSet [] "sess1" sampleSession 0,
         ⟨"sess1", [⟨1, 10, 10, 50, 50⟩], ⟨none⟩, 1, .ready⟩,
         ⟨"sess1", [⟨1, 100, 100, 30, 30⟩], ⟨none⟩, 2, .ready⟩⟩
        [false, true, false, true]).p1.phase = true ∧
    phaseOk (runSchedule
        ⟨cacheSet [] "sess1" sampleSession 0,
         ⟨"sess1", [⟨1, 10, 10, 50, 50⟩], ⟨none⟩, 1, .ready⟩,
         ⟨"sess1", [⟨1, 100, 100, 30, 30⟩], ⟨none⟩, 2, .ready⟩⟩
        [false, true, false, true]).p2.phase = true := by
  exact ⟨rfl, rfl, rfl⟩

/-- C9 amended: concurrent `apply` calls on one session are not
serialized (see the counterexample), but no interleaving can mix the two
rectangle sets: under every schedule, a call that finishes successfully
outputs exactly its own rectangles applied to the original stored
document, because each call draws on its own fresh decoded copy and
write-backs never alter the stored bytes. -/
theorem concurrent_apply_outputs_unmixed (base : SessionCache) (sid : String)
    (sd : SessionData) (t0 : Nat) (r1 r2 : List Redaction)
    (o1 o2 : RedactionOptions) (t1 t2 : Nat) (sched : List Bool) :
    (∀ doc, (runSchedule ⟨cacheSet base sid sd t0,
          ⟨sid, r1, o1, t1, .ready⟩, ⟨sid, r2, o2, t2, .ready⟩⟩ sched).p1.phase
        = .finished (.ok doc) →
        applyAllRedactions sd.pdfBuffer r1 o1 = .ok doc) ∧
    (∀ doc, (runSchedule ⟨cacheSet base sid sd t0,
          ⟨sid, r1, o1, t1, .ready⟩, ⟨sid, r2, o2, t2, .ready⟩⟩ sched).p2.phase
        = .finished (.ok doc) →
        applyAllRedactions sd.pdfBuffer r2 o2 = .ok doc) := by
  have h0c : cacheBufOk (cacheSet base sid sd t0) sid sd.pdfBuffer := by
    intro kv hkv hk
    rcases List.mem_cons.mp hkv with heq | hmem
    · rw [heq]
    · have hne := List.of_mem_filter hmem
      simp only [decide_eq_true_eq] at hne
      exact absurd hk hne
  obtain ⟨-, hp1, hp2⟩ := runSchedule_preserves sid sd.pdfBuffer r1 r2 o1 o2
    sched ⟨cacheSet base sid sd t0, ⟨sid, r1, o1, t1, .ready⟩,
      ⟨sid, r2, o2, t2, .ready⟩⟩
    h0c ⟨rfl, rfl, rfl, trivial⟩ ⟨rfl, rfl, rfl, trivial⟩
  constructor
  · intro doc hdoc
    obtain ⟨-, -, -, hm⟩ := hp1
    rw [hdoc] at hm
    exact hm
  · intro doc hdoc
    obtain ⟨-, -, -, hm⟩ := hp2
    rw [hdoc] at hm
    exact hm

/-- C9 witness: the unmixed-output theorem applied to the concrete
interleaved run of the counterexample's two calls. -/
theorem concurrent_apply_outputs_unmixed_witness :
    applyAllRedactions sampleSession.pdfBuffer [⟨1, 10, 10, 50, 50⟩] ⟨none⟩ =
      .ok ((phaseDoc (runSchedule
          ⟨cacheSet [] "sess1" sampleSession 0,
           ⟨"sess1", [⟨1, 10, 10, 50, 50⟩], ⟨none⟩, 1, .ready⟩,
           ⟨"sess1", [⟨1, 100, 100, 30, 30⟩], ⟨none⟩, 2, .ready⟩⟩
          [false, true, false, true]).p1.phase).getD sampleDoc) :=
  (concurrent_apply_outputs_unmixed [] "sess1" sampleSession 0
      [⟨1, 10, 10, 50, 50⟩] [⟨1, 100, 100, 30, 30⟩] ⟨none⟩ ⟨none⟩ 1 2
      [false, true, false, true]).1 _ rfl

end DocGen
